import Mathlib

/-!
Verification of the Mistral workflow engine (openstack/mistral) against its
natural-language specification.  The definitions below are a shallow embedding
of the Python source files:

  * mistral/engine/workflows.py        (Workflow.set_state, resume/rerun paths,
                                        _get_environment, _build_fail_info_message)
  * mistral/services/periodic.py       (process_cron_triggers_v2, advance_cron_trigger)
  * mistral/db/v2/sqlalchemy/models.py (validate_long_type_length, register_length_validator)
  * mistral/db/v2/sqlalchemy/api.py    (get_* / load_* accessors, cron trigger CAS update)
  * mistral/api/controllers/v2/task.py (TasksController.put)
  * mistral/workbook/parser.py         (_get_spec_version)

Python objects are modelled as Lean structures, in-place mutation as explicit
state passing, exceptions as `Except`, datetimes as `Nat` timestamps and JSON
values at the level of detail the verified properties need.  Definitions that
embed code whose module is not part of the source tree (only its callers are)
carry a doc comment starting with `Modelled from the spec:`.
-/

set_option autoImplicit false

namespace Mistral

/-- Execution states (mistral/workflow/states.py constants, referenced
throughout the sources). -/
inductive WfState where
  | IDLE
  | WAITING
  | RUNNING
  | RUNNING_DELAYED
  | PAUSED
  | SUCCESS
  | ERROR
deriving DecidableEq, Repr

open WfState

/-- Rendering of a state constant, used when building exception messages. -/
def stateStr : WfState → String
  | .IDLE => "IDLE"
  | .WAITING => "WAITING"
  | .RUNNING => "RUNNING"
  | .RUNNING_DELAYED => "DELAYED"
  | .PAUSED => "PAUSED"
  | .SUCCESS => "SUCCESS"
  | .ERROR => "ERROR"

/-- Modelled from the spec: `states.is_valid_transition` lives in
mistral/workflow/states.py which is not among the given source files.  The
table follows spec section 4.2: IDLE to RUNNING; RUNNING to SUCCESS, ERROR or
PAUSED; RUNNING and PAUSED in both directions; PAUSED to RUNNING, ERROR or
SUCCESS; SUCCESS or ERROR back to RUNNING only via rerun.  Tasks additionally
use WAITING (to RUNNING when a join unblocks) and RUNNING_DELAYED (entered from
RUNNING by a wait policy, left back to RUNNING, or to ERROR on timeout). -/
def is_valid_transition (from_state to_state : WfState) : Bool :=
  match from_state, to_state with
  | .IDLE, .RUNNING => true
  | .RUNNING, .SUCCESS => true
  | .RUNNING, .ERROR => true
  | .RUNNING, .PAUSED => true
  | .PAUSED, .RUNNING => true
  | .PAUSED, .ERROR => true
  | .PAUSED, .SUCCESS => true
  | .SUCCESS, .RUNNING => true
  | .ERROR, .RUNNING => true
  | .RUNNING, .RUNNING_DELAYED => true
  | .RUNNING_DELAYED, .RUNNING => true
  | .RUNNING_DELAYED, .ERROR => true
  | .WAITING, .RUNNING => true
  | _, _ => false

/-- Modelled from the spec: `states.is_completed` (mistral/workflow/states.py,
not among the given source files).  Spec section 3: executions "are terminal
in SUCCESS/ERROR". -/
def is_completed (state : WfState) : Bool :=
  state = SUCCESS || state = ERROR

/-- Typed errors raised by the embedded code (mistral/exceptions.py taxonomy,
spec section 7). `valueError` stands for an uncaught Python `ValueError` or
`TypeError` escaping from a builtin such as `float()`. -/
inductive MistralError where
  | workflowException (msg : String)
  | notFoundException (msg : String)
  | inputException (msg : String)
  | dslParsingException (msg : String)
  | sizeLimitExceededException (field_name : String) (size_kb limit_kb : Int)
  | valueError (msg : String)
deriving DecidableEq, Repr

/-- Action execution row (models.py `ActionExecution`): only the fields the
verified properties read.  `output` is the JSON dict column; values are kept
at their Python `str()` rendering. -/
structure ActionExecRow where
  id : String
  state : WfState
  output : Option (List (String × String))
deriving DecidableEq, Repr

/-- Task execution row (models.py `TaskExecution`): fields read by the engine
code under verification.  `executions` is the `TaskExecution.executions`
relationship (all executions owned by the task). -/
structure TaskExecRow where
  id : String
  name : String
  state : WfState
  state_info : Option String
  processed : Bool
  executions : List ActionExecRow
deriving DecidableEq, Repr

/-- Workflow execution row (models.py `WorkflowExecution`): fields read or
written by `Workflow.set_state` and `Workflow._continue_workflow`.
`task_executions` is the `WorkflowExecution.task_executions` relationship. -/
structure WfExecRow where
  id : String
  name : String
  workflow_name : String
  state : WfState
  state_info : Option String
  accepted : Bool
  task_executions : List TaskExecRow
deriving DecidableEq, Repr

/-- Workflow.set_state (engine/workflows.py lines 191-215), non-recursive
call.  In-place mutation is modelled by state passing: the error value carries
the object as it stands when the exception propagates, so the invalid branch
returning the untouched input is exactly "no mutation before the raise".  The
`accepted` assignment sits after the if/else in the source and is therefore
reached only on the valid branch (the other branch raises).  (The apostrophe
of the source message "Can't change ..." is elided.) -/
def set_state (wf_ex : WfExecRow) (state : WfState) (state_info : Option String) :
    Except (MistralError × WfExecRow) WfExecRow :=
  let cur_state := wf_ex.state
  if is_valid_transition cur_state state then
    let wf_ex := { wf_ex with state := state, state_info := state_info }
    let wf_ex := { wf_ex with accepted := is_completed state }
    Except.ok wf_ex
  else
    Except.error
      (MistralError.workflowException
        ("Cant change workflow execution state from " ++ stateStr cur_state ++
         " to " ++ stateStr state ++ ". [workflow=" ++ wf_ex.name ++
         ", execution_id=" ++ wf_ex.id ++ "]"),
       wf_ex)

/-- Workflow._create_execution (engine/workflows.py lines 161-189): the new
workflow execution row is created with `state = IDLE`; `accepted` takes the
column default `False` (models.py `ActionExecution.accepted`). -/
def create_workflow_execution_row (id name workflow_name : String)
    (task_executions : List TaskExecRow) : WfExecRow :=
  { id := id
    name := name
    workflow_name := workflow_name
    state := IDLE
    state_info := none
    accepted := false
    task_executions := task_executions }

/-- Workflow executions reachable by the engine: created IDLE by
`_create_execution` and then changed only by successful `set_state` calls
(the premise of claim C2). -/
inductive ReachableWfExec : WfExecRow → Prop where
  | created (id name workflow_name : String) (ts : List TaskExecRow) :
      ReachableWfExec (create_workflow_execution_row id name workflow_name ts)
  | step (ex : WfExecRow) (st : WfState) (info : Option String) (ex' : WfExecRow) :
      ReachableWfExec ex → set_state ex st info = Except.ok ex' →
      ReachableWfExec ex'

/-- Cron trigger row (models.py `CronTrigger`): the columns read and written
by `advance_cron_trigger`.  `next_execution_time` is a datetime modelled as a
numeric timestamp; `workflow_name` stands for the joined
`CronTrigger.workflow.name` used when firing. -/
structure CronTriggerRow where
  id : String
  name : String
  pattern : String
  next_execution_time : Nat
  remaining_executions : Option Int
  workflow_name : String
deriving DecidableEq, Repr

/-- The cron trigger table. -/
abbrev CronTriggerDb := List CronTriggerRow

/-- db/v2/sqlalchemy/api.py `_get_cron_trigger` via `_get_db_object_by_name`:
first row whose name matches. -/
def _get_cron_trigger (db : CronTriggerDb) (name : String) : Option CronTriggerRow :=
  db.find? (fun r => r.name == name)

/-- db/v2/sqlalchemy/api.py `delete_cron_trigger` (lines 1029-1042): look the
trigger up by name (NotFoundException when absent), then delete by its id and
return the affected row count. -/
def delete_cron_trigger (db : CronTriggerDb) (name : String) :
    Except MistralError (Nat × CronTriggerDb) :=
  match _get_cron_trigger db name with
  | none =>
      Except.error (MistralError.notFoundException
        ("Cron trigger not found [name=" ++ name ++ "]"))
  | some ct =>
      Except.ok ((db.filter (fun r => r.id == ct.id)).length,
                 db.filter (fun r => r.id != ct.id))

/-- db/v2/sqlalchemy/api.py `update_cron_trigger` (lines 986-1015),
specialised to the guarded call `advance_cron_trigger` makes: `values` is the
pair (next_execution_time, remaining_executions) and `query_filter` the old
`next_execution_time`.  `update_on_match` updates the row matching the id of
the row found by name together with the guard column and reports rowcount 1;
`NoRowsMatched` is caught and reported as rowcount 0.
The WHERE clause of the statement (surrogate key `id` plus the guard column)
is `cron_cas_matches` below and its SET clause is `cron_cas_update`. -/
def cron_cas_matches (ct_id : String) (filter_next : Nat) (r : CronTriggerRow) : Bool :=
  r.id == ct_id && r.next_execution_time == filter_next

/-- SET clause of the guarded cron trigger update applied to one row. -/
def cron_cas_update (ct_id : String) (filter_next new_next : Nat)
    (new_remaining : Option Int) (r : CronTriggerRow) : CronTriggerRow :=
  if cron_cas_matches ct_id filter_next r then
    { r with next_execution_time := new_next, remaining_executions := new_remaining }
  else r

def update_cron_trigger (db : CronTriggerDb) (name : String)
    (new_next : Nat) (new_remaining : Option Int) (filter_next : Nat) :
    Except MistralError (Nat × CronTriggerDb) :=
  match _get_cron_trigger db name with
  | none =>
      Except.error (MistralError.notFoundException
        ("Cron trigger not found [name=" ++ name ++ "]"))
  | some ct =>
      if db.any (cron_cas_matches ct.id filter_next) then
        Except.ok (1, db.map (cron_cas_update ct.id filter_next new_next new_remaining))
      else
        Except.ok (0, db)

/-- services/periodic.py `advance_cron_trigger` lines 87-89: the decrement of
the in-memory `remaining_executions`, applied only when it is non-null and
positive. -/
def decremented_remaining : Option Int → Option Int
  | some n => if 0 < n then some (n - 1) else some n
  | none => none

/-- services/periodic.py `advance_cron_trigger` (lines 82-120).  `ct` is the
in-memory snapshot the sweep iterates over, `db` the shared table,
`next_fn` the croniter-backed `triggers.get_next_execution_time`.  The
decrement of `remaining_executions` only touches the local object; a
`NotFoundException` from either db call is caught and leaves
`modified_count = 0`.  Returns `modified_count > 0` and the new table. -/
def advance_cron_trigger (next_fn : String → Nat → Nat) (ct : CronTriggerRow)
    (db : CronTriggerDb) : Bool × CronTriggerDb :=
  let remaining := decremented_remaining ct.remaining_executions
  if remaining = some 0 then
    match delete_cron_trigger db ct.name with
    | Except.ok (cnt, db') => (decide (0 < cnt), db')
    | Except.error _ => (false, db)
  else
    let next_time := next_fn ct.pattern ct.next_execution_time
    match update_cron_trigger db ct.name next_time remaining ct.next_execution_time with
    | Except.ok (cnt, db') => (decide (0 < cnt), db')
    | Except.error _ => (false, db)

/-- services/periodic.py `MistralPeriodicTasks.process_cron_triggers_v2`
(lines 40-79): one sweep over the due triggers `due` (the snapshot returned by
`triggers.get_next_cron_triggers`).  For each trigger the table is advanced
and, only if this engine modified the row, `start_workflow` is fired; the
result lists the workflow names fired, in order. -/
def process_cron_triggers_v2 (next_fn : String → Nat → Nat)
    (due : List CronTriggerRow) (db : CronTriggerDb) :
    List String × CronTriggerDb :=
  due.foldl
    (fun acc t =>
      let r := advance_cron_trigger next_fn t acc.2
      (acc.1 ++ (if r.1 then [t.workflow_name] else []), r.2))
    ([], db)

/-- db/v2/sqlalchemy/models.py `validate_long_type_length` (lines 195-218).
The value under assignment enters only through Python truthiness and through
`sys.getsizeof(str(value))`, abstracted here as the `truthy` flag and the
byte count `str_byte_size`.  A falsy JSON column value (None, empty dict or
list) has a tiny `str()` rendering, which the theorem carries as a
hypothesis.  `size_limit_kb` is the configured
`engine.execution_field_size_limit_kb`. -/
def validate_long_type_length (field_name : String) (size_limit_kb : Int)
    (truthy : Bool) (str_byte_size : Nat) : Except MistralError Unit :=
  if truthy then
    if size_limit_kb < 0 then
      Except.ok ()
    else
      let size_kb : Int := (str_byte_size : Int) / 1024
      if size_kb > size_limit_kb then
        Except.error
          (MistralError.sizeLimitExceededException field_name size_kb size_limit_kb)
      else
        Except.ok ()
  else
    Except.ok ()

/-- db/v2/sqlalchemy/models.py lines 399-400: the long JSON columns on which
`register_length_validator` installs the set-event listener. -/
def registered_length_fields : List String := ["input", "output", "params", "published"]

/-- An assignment to a column of an Execution subclass: the length validator
runs exactly for the registered long fields (models.py
`register_length_validator`, lines 221-233). -/
def set_execution_field (field_name : String) (size_limit_kb : Int)
    (truthy : Bool) (str_byte_size : Nat) : Except MistralError Unit :=
  if registered_length_fields.contains field_name then
    validate_long_type_length field_name size_limit_kb truthy str_byte_size
  else
    Except.ok ()

/-- Body of a PUT /tasks/{id} request (api/controllers/v2/task.py `Task`
resource): the fields `TasksController.put` reads.  `name` and
`workflow_name` are `task.name or None` and `task.workflow_name or None`,
`reset` is the mandatory boolean, `env` is `task.env or None`. -/
structure TaskPutRequest where
  state : WfState
  reset : Bool
  name : Option String
  workflow_name : Option String
  env : Option (List (String × String))
deriving DecidableEq, Repr

/-- The rerun invocation `rpc.get_engine_client().rerun_workflow(task_ex.id,
reset=reset, env=env)` recorded as data. -/
structure RerunCall where
  task_ex_id : String
  reset : Bool
  env : Option (List (String × String))
deriving DecidableEq, Repr

/-- api/controllers/v2/task.py `TasksController.put` (lines 251-301) after
the two db fetches: `task_ex` is the task execution found by id, `wf_ex` its
owning workflow execution, `with_items` is `task_spec.get_with_items()`
parsed from `task_ex.spec` (a with-items clause is present).  A returned
`RerunCall` is the invocation of `rerun_workflow`; every guard raises a
WorkflowException.  Note the function nowhere inspects `wf_ex.state`. -/
def tasks_controller_put (task_ex : TaskExecRow) (wf_ex : WfExecRow)
    (with_items : Bool) (task : TaskPutRequest) : Except MistralError RerunCall :=
  if (match task.name with | some n => n != task_ex.name | none => false) then
    Except.error (MistralError.workflowException "Task name does not match.")
  else if (match task.workflow_name with | some n => n != wf_ex.name | none => false) then
    Except.error (MistralError.workflowException "Workflow name does not match.")
  else if task.state ≠ WfState.RUNNING then
    Except.error (MistralError.workflowException
      "Invalid task state. Only updating task to rerun is supported.")
  else if task_ex.state ≠ WfState.ERROR then
    Except.error (MistralError.workflowException
      "The current task execution must be in ERROR for rerun. Only updating task to rerun is supported.")
  else if with_items = false ∧ task.reset = false then
    Except.error (MistralError.workflowException
      "Only with-items task has the option to not reset.")
  else
    Except.ok { task_ex_id := task_ex.id, reset := task.reset, env := task.env }

/-- Environment row (models.py `Environment`): name and variables. -/
structure EnvironmentRow where
  name : String
  «variables» : List (String × String)
deriving DecidableEq, Repr

/-- db/v2/sqlalchemy/api.py `load_environment` via `_get_environment` and
`_get_db_object_by_name`: first row whose name matches, or None. -/
def load_environment (db : List EnvironmentRow) (name : String) : Option EnvironmentRow :=
  db.find? (fun r => r.name == name)

/-- The `env` entry of a `start_workflow` params mapping, as the Python value
kinds `_get_environment` distinguishes: a mapping, a string, or anything
else. -/
inductive EnvParam where
  | dict (d : List (String × String))
  | str (s : String)
  | other (rendering : String)
deriving DecidableEq, Repr

/-- engine/workflows.py `_get_environment` (lines 322-341).  `params_env` is
`params.get('env', {})` before the default is applied: `none` when the key is
absent. -/
def _get_environment (db : List EnvironmentRow) (params_env : Option EnvParam) :
    Except MistralError (List (String × String)) :=
  let env := params_env.getD (EnvParam.dict [])
  match env with
  | EnvParam.dict d => Except.ok d
  | EnvParam.str s =>
      match load_environment db s with
      | none =>
          Except.error (MistralError.inputException ("Environment is not found: " ++ s))
      | some env_db => Except.ok env_db.«variables»
  | EnvParam.other r =>
      Except.error (MistralError.inputException
        ("Unexpected value type for environment [env=" ++ r ++ "]"))

/-- Value of a Python float expression: finite values are idealised as exact
rationals (IEEE rounding is not modelled; none of the verified properties
depends on values within rounding distance of a version number). -/
inductive FloatLike where
  | finite (q : Rat)
  | pinf
  | ninf
  | nan
deriving DecidableEq, Repr

/-- Numeric value of a digit run. -/
def digitsToNat (cs : List Char) : Nat :=
  cs.foldl (fun acc c => acc * 10 + (c.toNat - Char.toNat '0')) 0

/-- Exponent suffix of a Python float literal (after the e/E): optional sign
and a non-empty digit run ending the string; scales the mantissa. -/
def applyExponent (m : Rat) (cs : List Char) : Option Rat :=
  let (eneg, cs2) :=
    match cs with
    | '+' :: r => (false, r)
    | '-' :: r => (true, r)
    | r => (false, r)
  let (eDigits, rest) := cs2.span Char.isDigit
  if eDigits.isEmpty then none
  else if rest.isEmpty = false then none
  else
    let e := digitsToNat eDigits
    some (if eneg then m / (10 : Rat) ^ e else m * (10 : Rat) ^ e)

/-- Unsigned decimal part of a Python float literal: digits with an optional
fraction, at least one digit overall, then an optional exponent. -/
def parseDecimalCore (cs : List Char) : Option Rat :=
  let (intPart, rest) := cs.span Char.isDigit
  let (fracPart, rest2) :=
    match rest with
    | '.' :: r => r.span Char.isDigit
    | _ => ([], rest)
  if intPart.isEmpty && fracPart.isEmpty then none
  else
    let mantissa : Rat :=
      (digitsToNat intPart : Rat) +
        (digitsToNat fracPart : Rat) / ((10 : Rat) ^ fracPart.length)
    match rest2 with
    | [] => some mantissa
    | 'e' :: r => applyExponent mantissa r
    | 'E' :: r => applyExponent mantissa r
    | _ => none

/-- Surrounding whitespace stripped from a character list, as Python
`float()` does before parsing. -/
def pyStripChars (cs : List Char) : List Char :=
  ((cs.dropWhile Char.isWhitespace).reverse.dropWhile Char.isWhitespace).reverse

/-- Python `float(s)` on a string: surrounding whitespace is stripped, an
optional sign is followed by a decimal literal or one of inf, infinity, nan
(any case); `none` models the `ValueError` raised otherwise. -/
def pyParseFloat (s : String) : Option FloatLike :=
  let cs := pyStripChars s.data
  let (neg, cs2) :=
    match cs with
    | '+' :: r => (false, r)
    | '-' :: r => (true, r)
    | r => (false, r)
  let lower := String.mk (cs2.map Char.toLower)
  if lower = "inf" ∨ lower = "infinity" then
    some (if neg then FloatLike.ninf else FloatLike.pinf)
  else if lower = "nan" then
    some FloatLike.nan
  else
    (parseDecimalCore cs2).map (fun q => FloatLike.finite (if neg then -q else q))

/-- A Python value sitting under the version key of a parsed YAML document:
None, bool, int, float, string, or any other object (list, dict, ...), the
latter carrying only its truthiness. -/
inductive SpecVal where
  | vnone
  | vbool (b : Bool)
  | vint (n : Int)
  | vfloat (q : Rat)
  | vstr (s : String)
  | vother (truthy : Bool)
deriving DecidableEq, Repr

/-- Python truthiness of a version value. -/
def pyTruthy : SpecVal → Bool
  | SpecVal.vnone => false
  | SpecVal.vbool b => b
  | SpecVal.vint n => n != 0
  | SpecVal.vfloat q => q != 0
  | SpecVal.vstr s => s != ""
  | SpecVal.vother t => t

/-- Python `float(ver)`: numbers and bools convert, strings parse, None and
other objects raise (TypeError, modelled like ValueError as `none`). -/
def pyFloat : SpecVal → Option FloatLike
  | SpecVal.vnone => none
  | SpecVal.vbool b => some (FloatLike.finite (if b then 1 else 0))
  | SpecVal.vint n => some (FloatLike.finite (n : Rat))
  | SpecVal.vfloat q => some (FloatLike.finite q)
  | SpecVal.vstr s => pyParseFloat s
  | SpecVal.vother _ => none

/-- The membership test `str(float(ver)) in ALL_VERSIONS` with
`ALL_VERSIONS = ['2.0']`: `str` of a finite float is "2.0" exactly for the
float 2.0 (`str` distinguishes every other float, including -0.0, inf and
nan), so the test amounts to equality with 2. -/
def float_str_in_all_versions : FloatLike → Bool
  | FloatLike.finite q => q == 2
  | _ => false

/-- workbook/parser.py `_get_spec_version` (lines 47-57).  The spec dict
enters through its optional version entry: `version_entry = none` when the
key is absent, in which case `ver` keeps the default `V2_0 = '2.0'`.  The
`or` in `if not ver or str(float(ver)) not in ALL_VERSIONS` short-circuits,
so `float` is only reached for truthy values, and a conversion failure
escapes as an uncaught ValueError rather than a DSLParsingException. -/
def _get_spec_version (version_entry : Option SpecVal) : Except MistralError SpecVal :=
  let ver := version_entry.getD (SpecVal.vstr "2.0")
  if pyTruthy ver = false then
    Except.error (MistralError.dslParsingException "Unsupported DSL version")
  else
    match pyFloat ver with
    | none => Except.error (MistralError.valueError "could not convert version to float")
    | some f =>
        if float_str_in_all_versions f then
          Except.ok ver
        else
          Except.error (MistralError.dslParsingException "Unsupported DSL version")

/-- Modelled from the spec: `wf_utils.find_error_task_executions`
(mistral/workflow/utils.py, not among the given source files) — the task
executions of the workflow that are in ERROR ("enumerates exactly the ERROR
task executions", spec sections 4.9 and 7). -/
def find_error_task_executions (wf_ex : WfExecRow) : List TaskExecRow :=
  wf_ex.task_executions.filter (fun t => t.state == WfState.ERROR)

/-- Python `%s` rendering of the nullable `state_info` column. -/
def strOfOptStr : Option String → String
  | none => "None"
  | some s => s

/-- engine/workflows.py line 382: `(ex.output or dict()).get('result',
'Unknown')` — a missing output, an empty output dict, and an output dict
without a result key all render as Unknown. -/
def action_error_result (output : Option (List (String × String))) : String :=
  match output with
  | none => "Unknown"
  | some d => (d.lookup "result").getD "Unknown"

/-- engine/workflows.py `_build_fail_info_message` (lines 364-391).
`is_error_handled_for` is the workflow controller predicate (the controller
lives outside the given sources and is abstracted as a function).  The failed
tasks are the unhandled ERROR task executions sorted by name (Python `sorted`
is a stable sort, modelled by `mergeSort`); the message accumulates a header
line and, per failed task, its name/id/state_info and one line per action
execution in ERROR with its enumerate index and result. -/
def _build_fail_info_message (is_error_handled_for : TaskExecRow → Bool)
    (wf_ex : WfExecRow) : String :=
  let failed_tasks :=
    ((find_error_task_executions wf_ex).filter
      (fun t => !(is_error_handled_for t))).mergeSort
      (fun a b => decide (a.name ≤ b.name))
  let msg := "Failure caused by error in tasks: " ++
    String.intercalate ", " (failed_tasks.map (fun t => t.name)) ++ "\n"
  failed_tasks.foldl
    (fun m t =>
      (t.executions.enum.foldl
        (fun m2 p =>
          if p.2.state == WfState.ERROR then
            m2 ++ ("    [action_ex_id=" ++ p.2.id ++ ", idx=" ++ toString p.1 ++
              "]: " ++ action_error_result p.2.output ++ "\n")
          else m2)
        (m ++ ("\n  " ++ t.name ++ " [task_ex_id=" ++ t.id ++ "] -> " ++
          strOfOptStr t.state_info ++ "\n"))))
    msg

/-- Concatenation of a list of strings, used by the specification-side
message description. -/
def concat_strings : List String → String
  | [] => ""
  | s :: rest => s ++ concat_strings rest

/-- Specification-side description of the failed-task list (claim C8): the
ERROR task executions for which no on-error handler was taken, sorted by task
name ascending. -/
def spec_failed_tasks (is_error_handled_for : TaskExecRow → Bool)
    (wf_ex : WfExecRow) : List TaskExecRow :=
  (wf_ex.task_executions.filter
    (fun t => t.state == WfState.ERROR && !(is_error_handled_for t))).mergeSort
    (fun a b => decide (a.name ≤ b.name))

/-- Specification-side description of one failed task entry: its name, id and
state_info, followed by the result (or Unknown) of each of its action
executions in ERROR, tagged with the action id and position. -/
def spec_task_entry (t : TaskExecRow) : String :=
  "\n  " ++ t.name ++ " [task_ex_id=" ++ t.id ++ "] -> " ++
    strOfOptStr t.state_info ++ "\n" ++
  concat_strings (t.executions.enum.map (fun p =>
    if p.2.state == WfState.ERROR then
      "    [action_ex_id=" ++ p.2.id ++ ", idx=" ++ toString p.1 ++ "]: " ++
        action_error_result p.2.output ++ "\n"
    else ""))

/-- Specification-side description of the whole aggregated failure message
(claim C8): a header enumerating the failed task names, then the entries of
the failed tasks in the same order. -/
def spec_fail_message (is_error_handled_for : TaskExecRow → Bool)
    (wf_ex : WfExecRow) : String :=
  "Failure caused by error in tasks: " ++
    String.intercalate ", "
      ((spec_failed_tasks is_error_handled_for wf_ex).map (fun t => t.name)) ++ "\n" ++
  concat_strings ((spec_failed_tasks is_error_handled_for wf_ex).map spec_task_entry)

/-- Modelled from the spec: the command variants emitted by the workflow
controller (mistral/workflow/commands.py, not among the given source files);
spec section 4.3 lists RunTask, PauseWorkflow, FailWorkflow, SucceedWorkflow
and Noop.  `_continue_workflow` only discriminates PauseWorkflow. -/
inductive WfCommand where
  | runTask (task_name : String)
  | pauseWorkflow
  | failWorkflow (msg : String)
  | succeedWorkflow
  | noop
deriving DecidableEq, Repr

/-- The `isinstance(c, commands.PauseWorkflow)` test. -/
def is_pause_command : WfCommand → Bool
  | WfCommand.pauseWorkflow => true
  | _ => false

/-- engine/workflows.py `Workflow._continue_workflow` (lines 236-260), used by
resume and rerun.  `cmds` is the command list computed by the controller
(`wf_ctrl.continue_workflow`, outside the given sources).  Pause commands are
filtered out, every completed yet unprocessed task execution is marked
processed, and the filtered commands go to the dispatcher (returned here).
The trailing `_check_and_complete` call touches only the workflow state and
output, never the task executions. -/
def _continue_workflow (wf_ex : WfExecRow) (cmds : List WfCommand) :
    List WfCommand × WfExecRow :=
  let cmds := cmds.filter (fun c => !(is_pause_command c))
  let task_executions := wf_ex.task_executions.map (fun t =>
    if is_completed t.state && !t.processed then { t with processed := true } else t)
  (cmds, { wf_ex with task_executions := task_executions })

/-- Workflow definition row (models.py `WorkflowDefinition`): the columns the
accessors key on. -/
structure WorkflowDefinitionRow where
  id : String
  name : String
deriving DecidableEq, Repr

/-- The tables behind the db/v2/sqlalchemy/api.py accessors of claim C10. -/
structure Db where
  workflow_executions : List WfExecRow
  task_executions : List TaskExecRow
  action_executions : List ActionExecRow
  cron_triggers : List CronTriggerRow
  environments : List EnvironmentRow
  workflow_definitions : List WorkflowDefinitionRow
deriving DecidableEq, Repr

namespace db_api

/-- db/v2/sqlalchemy/api.py `_get_db_object_by_id` (line 154):
`_secure_query(model).filter_by(id=id).first()`, generic over the table and
its id column. -/
def _get_db_object_by_id {α : Type} (id_of : α → String) (table : List α)
    (id : String) : Option α :=
  table.find? (fun r => id_of r == id)

/-- db/v2/sqlalchemy/api.py `_get_db_object_by_name` (line 150). -/
def _get_db_object_by_name {α : Type} (name_of : α → String) (table : List α)
    (name : String) : Option α :=
  table.find? (fun r => name_of r == name)

/-- api.py `get_workflow_execution` (lines 661-667).  The accessors are pure
reads; state passing of `db` makes that a provable statement rather than a
typing convention. -/
def get_workflow_execution (db : Db) (id : String) :
    Except MistralError WfExecRow × Db :=
  match _get_db_object_by_id (fun r : WfExecRow => r.id) db.workflow_executions id with
  | none =>
      (Except.error (MistralError.notFoundException
        ("WorkflowExecution not found [id=" ++ id ++ "]")), db)
  | some wf_ex => (Except.ok wf_ex, db)

/-- api.py `load_workflow_execution` (lines 670-671). -/
def load_workflow_execution (db : Db) (id : String) : Option WfExecRow × Db :=
  (_get_db_object_by_id (fun r : WfExecRow => r.id) db.workflow_executions id, db)

/-- api.py `get_task_execution` (lines 755-761). -/
def get_task_execution (db : Db) (id : String) :
    Except MistralError TaskExecRow × Db :=
  match _get_db_object_by_id (fun r : TaskExecRow => r.id) db.task_executions id with
  | none =>
      (Except.error (MistralError.notFoundException
        ("Task execution not found [id=" ++ id ++ "]")), db)
  | some task_ex => (Except.ok task_ex, db)

/-- api.py `load_task_execution` (lines 764-765). -/
def load_task_execution (db : Db) (id : String) : Option TaskExecRow × Db :=
  (_get_db_object_by_id (fun r : TaskExecRow => r.id) db.task_executions id, db)

/-- api.py `get_action_execution` (lines 574-581). -/
def get_action_execution (db : Db) (id : String) :
    Except MistralError ActionExecRow × Db :=
  match _get_db_object_by_id (fun r : ActionExecRow => r.id) db.action_executions id with
  | none =>
      (Except.error (MistralError.notFoundException
        ("ActionExecution not found [id=" ++ id ++ "]")), db)
  | some a_ex => (Except.ok a_ex, db)

/-- api.py `load_action_execution` (lines 584-585). -/
def load_action_execution (db : Db) (id : String) : Option ActionExecRow × Db :=
  (_get_db_object_by_id (fun r : ActionExecRow => r.id) db.action_executions id, db)

/-- api.py `get_cron_trigger` (lines 935-942). -/
def get_cron_trigger (db : Db) (name : String) :
    Except MistralError CronTriggerRow × Db :=
  match _get_db_object_by_name (fun r : CronTriggerRow => r.name) db.cron_triggers name with
  | none =>
      (Except.error (MistralError.notFoundException
        ("Cron trigger not found [name=" ++ name ++ "]")), db)
  | some ct => (Except.ok ct, db)

/-- api.py `load_cron_trigger` (lines 945-946). -/
def load_cron_trigger (db : Db) (name : String) : Option CronTriggerRow × Db :=
  (_get_db_object_by_name (fun r : CronTriggerRow => r.name) db.cron_triggers name, db)

/-- api.py `get_environment` (lines 1062-1068). -/
def get_environment (db : Db) (name : String) :
    Except MistralError EnvironmentRow × Db :=
  match _get_db_object_by_name (fun r : EnvironmentRow => r.name) db.environments name with
  | none =>
      (Except.error (MistralError.notFoundException
        ("Environment not found [name=" ++ name ++ "]")), db)
  | some env => (Except.ok env, db)

/-- api.py `load_environment` (lines 1071-1072). -/
def load_environment (db : Db) (name : String) : Option EnvironmentRow × Db :=
  (_get_db_object_by_name (fun r : EnvironmentRow => r.name) db.environments name, db)

/-- api.py `get_workflow_definition` (lines 250-258). -/
def get_workflow_definition (db : Db) (name : String) :
    Except MistralError WorkflowDefinitionRow × Db :=
  match _get_db_object_by_name (fun r : WorkflowDefinitionRow => r.name)
      db.workflow_definitions name with
  | none =>
      (Except.error (MistralError.notFoundException
        ("Workflow not found [workflow_name=" ++ name ++ "]")), db)
  | some wf_def => (Except.ok wf_def, db)

/-- api.py `load_workflow_definition` (lines 272-273). -/
def load_workflow_definition (db : Db) (name : String) :
    Option WorkflowDefinitionRow × Db :=
  (_get_db_object_by_name (fun r : WorkflowDefinitionRow => r.name)
    db.workflow_definitions name, db)

end db_api

/-- Unique-id table well-formedness (`id` is the primary key of
cron_triggers_v2). -/
def cron_unique_ids (db : CronTriggerDb) : Prop :=
  (db.map (fun r => r.id)).Nodup

/-- Unique-name table well-formedness (UniqueConstraint (name, project_id) of
cron_triggers_v2, single project). -/
def cron_unique_names (db : CronTriggerDb) : Prop :=
  (db.map (fun r => r.name)).Nodup

end Mistral

namespace Mistral

open WfState

/-- Claim C1: Workflow.set_state either performs a transition that is valid
according to the state-machine table, or raises a WorkflowException and leaves
the execution state and state_info exactly as they were before the call. -/
theorem set_state_valid_or_raises (ex : WfExecRow) (st : WfState) (info : Option String) :
    match set_state ex st info with
    | Except.ok ex' =>
        is_valid_transition ex.state st = true ∧
        ex'.state = st ∧ ex'.state_info = info
    | Except.error (e, exAfter) =>
        is_valid_transition ex.state st = false ∧
        exAfter = ex ∧
        ∃ msg, e = MistralError.workflowException msg := by
  cases hval : is_valid_transition ex.state st with
  | true => simp [set_state, hval]
  | false => simp [set_state, hval]

/-- Claim C2: after every successful `set_state` the `accepted` flag is true
iff the state is SUCCESS or ERROR, and consequently every reachable workflow
execution with `accepted = true` is in SUCCESS or ERROR. -/
theorem accepted_iff_completed :
    (∀ (ex : WfExecRow) (st : WfState) (info : Option String) (ex' : WfExecRow),
        set_state ex st info = Except.ok ex' →
        (ex'.accepted = true ↔ (ex'.state = SUCCESS ∨ ex'.state = ERROR))) ∧
    (∀ ex : WfExecRow, ReachableWfExec ex →
        ex.accepted = true → ex.state = SUCCESS ∨ ex.state = ERROR) := by
  have hstep : ∀ (ex : WfExecRow) (st : WfState) (info : Option String) (ex' : WfExecRow),
      set_state ex st info = Except.ok ex' →
      (ex'.accepted = true ↔ (ex'.state = SUCCESS ∨ ex'.state = ERROR)) := by
    intro ex st info ex' h
    cases hv : is_valid_transition ex.state st with
    | false => simp [set_state, hv] at h
    | true =>
      simp [set_state, hv] at h
      subst h
      simp [is_completed]
  refine ⟨hstep, ?_⟩
  intro ex hreach
  induction hreach with
  | created id name workflow_name ts =>
      intro h
      simp [create_workflow_execution_row] at h
  | step ex st info ex' _ hset ih =>
      intro h
      exact (hstep ex st info ex' hset).mp h

/-- Witness for claim C2: the concrete execution created IDLE, moved to
RUNNING and then to SUCCESS is reachable, has `accepted = true`, and the
theorem places its state in SUCCESS or ERROR. -/
theorem accepted_iff_completed_witness :
    (⟨"id1", "wf", "wf", SUCCESS, none, true, []⟩ : WfExecRow).state = SUCCESS ∨
    (⟨"id1", "wf", "wf", SUCCESS, none, true, []⟩ : WfExecRow).state = ERROR := by
  refine accepted_iff_completed.2 _ ?_ rfl
  exact ReachableWfExec.step ⟨"id1", "wf", "wf", RUNNING, none, false, []⟩
    SUCCESS none _
    (ReachableWfExec.step (create_workflow_execution_row "id1" "wf" "wf" [])
      RUNNING none _ (ReachableWfExec.created "id1" "wf" "wf" []) rfl) rfl

/-- Helper: a successful lookup by name returns a member row carrying that
name. -/
theorem cron_find_mem {db : CronTriggerDb} {nm : String} {ct : CronTriggerRow}
    (h : _get_cron_trigger db nm = some ct) : ct ∈ db ∧ ct.name = nm := by
  refine ⟨List.mem_of_find?_eq_some h, ?_⟩
  have := List.find?_some h
  simpa using this

/-- Helper: after the delete-by-id of a row found by name, no row with that
name is left (names are unique). -/
theorem cron_deleted_find_none {db : CronTriggerDb} {nm : String}
    {ct : CronTriggerRow} (hnames : cron_unique_names db)
    (hfind : _get_cron_trigger db nm = some ct) :
    _get_cron_trigger (db.filter (fun r => r.id != ct.id)) nm = none := by
  obtain ⟨hmem, hname⟩ := cron_find_mem hfind
  unfold _get_cron_trigger
  apply List.find?_eq_none.mpr
  intro r hr
  simp only [List.mem_filter] at hr
  obtain ⟨hrdb, hrid⟩ := hr
  simp only [beq_eq_false_iff_ne, ne_eq, bne_iff_ne] at hrid ⊢
  intro hEq
  have hrname : r.name = ct.name := by
    rw [hname]
    exact of_decide_eq_true hEq
  have : r = ct := List.inj_on_of_nodup_map hnames hrdb hmem hrname
  exact hrid (congrArg CronTriggerRow.id this)

/-- Helper: once a sweep has advanced a cron trigger, a second sweep holding
the same snapshot can no longer modify it: the row is gone (delete path) or
the optimistic guard on the old `next_execution_time` no longer matches
(update path). -/
theorem advance_cron_trigger_at_most_once
    (next_fn : String → Nat → Nat) (s : CronTriggerRow) (db : CronTriggerDb)
    (hnext : ∀ p n, n < next_fn p n)
    (hids : cron_unique_ids db) (hnames : cron_unique_names db)
    (h1 : (advance_cron_trigger next_fn s db).1 = true) :
    (advance_cron_trigger next_fn s (advance_cron_trigger next_fn s db).2).1 = false := by
  by_cases hzero : decremented_remaining s.remaining_executions = some 0
  · -- delete path in both sweeps
    cases hfind : _get_cron_trigger db s.name with
    | none =>
        simp [advance_cron_trigger, hzero, delete_cron_trigger, hfind] at h1
    | some ct =>
        have hgone := cron_deleted_find_none hnames hfind
        simp [advance_cron_trigger, hzero, delete_cron_trigger, hfind, hgone]
  · -- update path in both sweeps
    cases hfind : _get_cron_trigger db s.name with
    | none =>
        simp [advance_cron_trigger, hzero, update_cron_trigger, hfind] at h1
    | some ct =>
        obtain ⟨hmem, hname⟩ := cron_find_mem hfind
        cases hany : db.any (cron_cas_matches ct.id s.next_execution_time) with
        | false =>
            simp [advance_cron_trigger, hzero, update_cron_trigger, hfind, hany] at h1
        | true =>
            -- by id uniqueness the row matching the guard is `ct` itself
            obtain ⟨rstar, hrmem, hrprop⟩ := List.any_eq_true.mp hany
            have hrprop' : rstar.id = ct.id ∧
                rstar.next_execution_time = s.next_execution_time := by
              simpa [cron_cas_matches] using hrprop
            have hrct : rstar = ct :=
              List.inj_on_of_nodup_map hids hrmem hmem hrprop'.1
            have hctnext : ct.next_execution_time = s.next_execution_time := by
              rw [← hrct]
              exact hrprop'.2
            have hneq : next_fn s.pattern s.next_execution_time ≠ s.next_execution_time :=
              Nat.ne_of_gt (hnext s.pattern s.next_execution_time)
            have hstep1 : (advance_cron_trigger next_fn s db).2 =
                db.map (cron_cas_update ct.id s.next_execution_time
                  (next_fn s.pattern s.next_execution_time)
                  (decremented_remaining s.remaining_executions)) := by
              simp [advance_cron_trigger, hzero, update_cron_trigger, hfind, hany]
            rw [hstep1]
            have hupd_name : ∀ r, (cron_cas_update ct.id s.next_execution_time
                (next_fn s.pattern s.next_execution_time)
                (decremented_remaining s.remaining_executions) r).name = r.name := by
              intro r
              unfold cron_cas_update
              split <;> rfl
            have hupd_id : ∀ r, (cron_cas_update ct.id s.next_execution_time
                (next_fn s.pattern s.next_execution_time)
                (decremented_remaining s.remaining_executions) r).id = r.id := by
              intro r
              unfold cron_cas_update
              split <;> rfl
            have hupd_ct : (cron_cas_update ct.id s.next_execution_time
                (next_fn s.pattern s.next_execution_time)
                (decremented_remaining s.remaining_executions) ct).next_execution_time =
                next_fn s.pattern s.next_execution_time := by
              unfold cron_cas_update
              rw [if_pos (by simp [cron_cas_matches, hctnext])]
            -- second sweep on the updated table
            cases hfind2 : _get_cron_trigger
                (db.map (cron_cas_update ct.id s.next_execution_time
                  (next_fn s.pattern s.next_execution_time)
                  (decremented_remaining s.remaining_executions))) s.name with
            | none =>
                simp [advance_cron_trigger, hzero, update_cron_trigger, hfind2]
            | some ct₂ =>
                obtain ⟨hmem₂, hname₂⟩ := cron_find_mem hfind2
                obtain ⟨r₂, hr₂db, hr₂eq⟩ := List.mem_map.mp hmem₂
                have hr₂name : r₂.name = ct.name := by
                  rw [hname, ← hname₂, ← hr₂eq]
                  exact (hupd_name r₂).symm
                have hr₂ct : r₂ = ct := List.inj_on_of_nodup_map hnames hr₂db hmem hr₂name
                have hct₂id : ct₂.id = ct.id := by
                  rw [← hr₂eq, hupd_id r₂, hr₂ct]
                have hguard : (db.map (cron_cas_update ct.id s.next_execution_time
                    (next_fn s.pattern s.next_execution_time)
                    (decremented_remaining s.remaining_executions))).any
                    (cron_cas_matches ct₂.id s.next_execution_time) = false := by
                  apply List.any_eq_false.mpr
                  intro r hr
                  obtain ⟨r₀, hr₀db, hr₀eq⟩ := List.mem_map.mp hr
                  intro hcontra
                  have hcontra' : r.id = ct₂.id ∧
                      r.next_execution_time = s.next_execution_time := by
                    simpa [cron_cas_matches] using hcontra
                  have hr₀id : r₀.id = ct.id := by
                    rw [← hct₂id, ← hcontra'.1, ← hr₀eq, hupd_id r₀]
                  have hr₀ct : r₀ = ct := List.inj_on_of_nodup_map hids hr₀db hmem hr₀id
                  have : r.next_execution_time = next_fn s.pattern s.next_execution_time := by
                    rw [← hr₀eq, hr₀ct]
                    exact hupd_ct
                  rw [hcontra'.2] at this
                  exact hneq this.symm
                simp [advance_cron_trigger, hzero, update_cron_trigger, hfind2, hguard]

/-- Claim C3: in one sweep a due cron trigger fires `start_workflow` exactly
when `advance_cron_trigger` reported a modified row; a trigger on its last
remaining execution is deleted by the advance; and across two sweeps holding
the same `next_execution_time` snapshot the trigger modifies-and-fires at
most once. -/
theorem cron_trigger_fires_at_most_once
    (next_fn : String → Nat → Nat) (s : CronTriggerRow) (db : CronTriggerDb)
    (hnext : ∀ p n, n < next_fn p n)
    (hids : cron_unique_ids db) (hnames : cron_unique_names db) :
    (process_cron_triggers_v2 next_fn [s] db).1 =
      (if (advance_cron_trigger next_fn s db).1 then [s.workflow_name] else []) ∧
    (s.remaining_executions = some 1 → (advance_cron_trigger next_fn s db).1 = true →
      _get_cron_trigger (advance_cron_trigger next_fn s db).2 s.name = none) ∧
    (process_cron_triggers_v2 next_fn [s] db).1.length +
      (process_cron_triggers_v2 next_fn [s]
        (process_cron_triggers_v2 next_fn [s] db).2).1.length ≤ 1 := by
  have hsingle : ∀ d : CronTriggerDb,
      process_cron_triggers_v2 next_fn [s] d =
        ((if (advance_cron_trigger next_fn s d).1 then [s.workflow_name] else []),
         (advance_cron_trigger next_fn s d).2) := by
    intro d
    simp [process_cron_triggers_v2]
  refine ⟨by rw [hsingle db], ?_, ?_⟩
  · -- a trigger on its last execution takes the delete path
    intro hrem h1
    have hzero : decremented_remaining s.remaining_executions = some 0 := by
      simp [decremented_remaining, hrem]
    cases hfind : _get_cron_trigger db s.name with
    | none =>
        simp [advance_cron_trigger, hzero, delete_cron_trigger, hfind] at h1
    | some ct =>
        have hgone := cron_deleted_find_none hnames hfind
        simp [advance_cron_trigger, hzero, delete_cron_trigger, hfind]
        exact hgone
  · rw [hsingle db, hsingle (advance_cron_trigger next_fn s db).2]
    cases h1 : (advance_cron_trigger next_fn s db).1 with
    | false =>
        cases h2 : (advance_cron_trigger next_fn s (advance_cron_trigger next_fn s db).2).1 <;>
          simp [h1, h2]
    | true =>
        have h2 := advance_cron_trigger_at_most_once next_fn s db hnext hids hnames h1
        simp [h2]

/-- Claim C4: an assignment to one of the long JSON fields input, output,
params, published fails with SizeLimitExceededException whenever the
configured limit is non-negative and the size in KB of the value exceeds it,
and rejects nothing when the configured limit is negative.  The hypothesis
records the Python fact that a falsy JSON column value renders in well under
1024 bytes. -/
theorem long_field_size_limit (field_name : String) (size_limit_kb : Int)
    (truthy : Bool) (str_byte_size : Nat)
    (hfield : field_name ∈ registered_length_fields)
    (hfalsy : truthy = false → str_byte_size < 1024) :
    (0 ≤ size_limit_kb → (str_byte_size : Int) / 1024 > size_limit_kb →
      set_execution_field field_name size_limit_kb truthy str_byte_size =
        Except.error (MistralError.sizeLimitExceededException field_name
          ((str_byte_size : Int) / 1024) size_limit_kb)) ∧
    (size_limit_kb < 0 →
      set_execution_field field_name size_limit_kb truthy str_byte_size =
        Except.ok ()) := by
  have hcontains : registered_length_fields.contains field_name = true := by
    simpa using hfield
  constructor
  · intro h0 hgt
    cases truthy with
    | false =>
        exfalso
        have hlt : (str_byte_size : Int) < 1024 := by
          exact_mod_cast hfalsy rfl
        have hz : (str_byte_size : Int) / 1024 = 0 :=
          Int.ediv_eq_zero_of_lt (Int.natCast_nonneg _) hlt
        rw [hz] at hgt
        omega
    | true =>
        have hn : ¬ size_limit_kb < 0 := not_lt.mpr h0
        simp [set_execution_field, hcontains, hfield, validate_long_type_length, hn, hgt]
  · intro hneg
    cases truthy <;>
      simp [set_execution_field, hcontains, hfield, validate_long_type_length, hneg]

/-- Witness for claim C4: a 4 KB value assigned to `input` under a 1 KB limit
is rejected with SizeLimitExceededException. -/
theorem long_field_size_limit_witness :
    set_execution_field "input" 1 true 4096 =
      Except.error (MistralError.sizeLimitExceededException "input"
        (((4096 : Nat) : Int) / 1024) 1) :=
  (long_field_size_limit "input" 1 true 4096 (by decide) (by decide)).1
    (by decide) (by decide)

/-- Claim C5 counterexample: with the target task in ERROR, reset=true and the
requested state RUNNING, `TasksController.put` invokes `rerun_workflow` even
though the owning workflow execution is RUNNING, which is neither ERROR nor
PAUSED; no WorkflowException is raised.  The controller never checks the
workflow state. -/
theorem tasks_put_no_workflow_state_check :
    tasks_controller_put
      { id := "t1", name := "task1", state := WfState.ERROR, state_info := none,
        processed := false, executions := [] }
      { id := "w1", name := "wf1", workflow_name := "wf1", state := WfState.RUNNING,
        state_info := none, accepted := false, task_executions := [] }
      false
      { state := WfState.RUNNING, reset := true, name := none,
        workflow_name := none, env := none } =
      Except.ok { task_ex_id := "t1", reset := true, env := none } ∧
    WfState.RUNNING ≠ WfState.ERROR ∧ WfState.RUNNING ≠ WfState.PAUSED := by
  refine ⟨rfl, by decide, by decide⟩

/-- Claim C5 (amended): the PUT rerun raises a WorkflowException, without
invoking rerun_workflow, unless the requested state is RUNNING, the target
task execution is in ERROR, and either reset=true or the task is a with-items
task; the owning workflow state is not examined by the controller. -/
theorem tasks_put_guards (task_ex : TaskExecRow) (wf_ex : WfExecRow)
    (with_items : Bool) (task : TaskPutRequest)
    (h : task.state ≠ WfState.RUNNING ∨ task_ex.state ≠ WfState.ERROR ∨
         (with_items = false ∧ task.reset = false)) :
    ∃ msg, tasks_controller_put task_ex wf_ex with_items task =
      Except.error (MistralError.workflowException msg) := by
  unfold tasks_controller_put
  split
  · exact ⟨_, rfl⟩
  split
  · exact ⟨_, rfl⟩
  split
  · exact ⟨_, rfl⟩
  split
  · exact ⟨_, rfl⟩
  split
  · exact ⟨_, rfl⟩
  rename_i hstate htask hreset
  exfalso
  rcases h with h | h | h
  · exact hstate h
  · exact htask h
  · exact hreset h

/-- Witness for claim C5: a rerun request against a task in SUCCESS is
rejected with a WorkflowException. -/
theorem tasks_put_guards_witness :
    ∃ msg, tasks_controller_put
      ⟨"t1", "task1", WfState.SUCCESS, none, false, []⟩
      ⟨"w1", "wf1", "wf1", WfState.ERROR, none, false, []⟩
      false ⟨WfState.RUNNING, true, none, none, none⟩ =
      Except.error (MistralError.workflowException msg) :=
  tasks_put_guards _ _ _ _ (Or.inr (Or.inl (by decide)))

/-- Claim C6: environment resolution returns an inline mapping as is, returns
the stored variables for a string naming an existing environment, raises
InputException for a string naming no environment, raises InputException for
any other value type, and yields the empty mapping when env is absent. -/
theorem get_environment_resolution (db : List EnvironmentRow)
    (params_env : Option EnvParam) :
    (∀ d, params_env = some (EnvParam.dict d) →
      _get_environment db params_env = Except.ok d) ∧
    (params_env = none → _get_environment db params_env = Except.ok []) ∧
    (∀ s, params_env = some (EnvParam.str s) →
      (∀ e, load_environment db s = some e →
        _get_environment db params_env = Except.ok e.«variables») ∧
      (load_environment db s = none →
        _get_environment db params_env =
          Except.error (MistralError.inputException ("Environment is not found: " ++ s)))) ∧
    (∀ r, params_env = some (EnvParam.other r) →
      ∃ msg, _get_environment db params_env =
        Except.error (MistralError.inputException msg)) := by
  refine ⟨?_, ?_, ?_, ?_⟩
  · intro d h
    subst h
    rfl
  · intro h
    subst h
    rfl
  · intro s h
    subst h
    constructor
    · intro e he
      simp [_get_environment, he]
    · intro he
      simp [_get_environment, he]
  · intro r h
    subst h
    exact ⟨_, rfl⟩

/-- Witness for claim C6: an inline mapping is returned unchanged. -/
theorem get_environment_resolution_witness :
    _get_environment [] (some (EnvParam.dict [("k", "v")])) =
      Except.ok [("k", "v")] :=
  (get_environment_resolution [] (some (EnvParam.dict [("k", "v")]))).1
    [("k", "v")] rfl

/-- Claim C7 counterexample: the unsupported version value "abc" does not
fail with a DSL parsing error; `float('abc')` raises an uncaught ValueError
inside the check. -/
theorem spec_version_valueerror_on_garbage :
    _get_spec_version (some (SpecVal.vstr "abc")) =
      Except.error (MistralError.valueError "could not convert version to float") ∧
    ∀ msg, _get_spec_version (some (SpecVal.vstr "abc")) ≠
      Except.error (MistralError.dslParsingException msg) := by
  have h : _get_spec_version (some (SpecVal.vstr "abc")) =
      Except.error (MistralError.valueError "could not convert version to float") := by
    rfl
  refine ⟨h, ?_⟩
  intro msg hcontra
  rw [h] at hcontra
  simp at hcontra

/-- Claim C7 (amended): the version check accepts an absent version key
(defaulting to '2.0') and every truthy value that `float()` converts to 2.0;
a falsy value or a convertible value naming another version fails with a DSL
parsing error; a truthy value that `float()` cannot convert raises an
uncaught ValueError instead of a DSL parsing error. -/
theorem spec_version_check (version_entry : Option SpecVal) :
    (version_entry = none →
      _get_spec_version version_entry = Except.ok (SpecVal.vstr "2.0")) ∧
    (∀ v, version_entry = some v → pyTruthy v = true →
      pyFloat v = some (FloatLike.finite 2) →
      _get_spec_version version_entry = Except.ok v) ∧
    (∀ v, version_entry = some v → pyTruthy v = false →
      ∃ m, _get_spec_version version_entry =
        Except.error (MistralError.dslParsingException m)) ∧
    (∀ v f, version_entry = some v → pyTruthy v = true → pyFloat v = some f →
      float_str_in_all_versions f = false →
      ∃ m, _get_spec_version version_entry =
        Except.error (MistralError.dslParsingException m)) ∧
    (∀ v, version_entry = some v → pyTruthy v = true → pyFloat v = none →
      ∃ m, _get_spec_version version_entry =
        Except.error (MistralError.valueError m)) := by
  refine ⟨?_, ?_, ?_, ?_, ?_⟩
  · intro h
    subst h
    have h20 : pyFloat (SpecVal.vstr "2.0") = some (FloatLike.finite 2) := by
      simp +decide [pyFloat, pyParseFloat, pyStripChars, parseDecimalCore, digitsToNat]
    have htr : pyTruthy (SpecVal.vstr "2.0") = true := by decide
    simp [_get_spec_version, htr, h20, float_str_in_all_versions]
  · intro v h htr hfl
    subst h
    simp [_get_spec_version, htr, hfl, float_str_in_all_versions]
  · intro v h htr
    subst h
    exact ⟨"Unsupported DSL version", by simp [_get_spec_version, htr]⟩
  · intro v f h htr hfl hnotin
    subst h
    exact ⟨"Unsupported DSL version", by simp [_get_spec_version, htr, hfl, hnotin]⟩
  · intro v h htr hfl
    subst h
    exact ⟨"could not convert version to float", by simp [_get_spec_version, htr, hfl]⟩

/-- Witness for claim C7: the version string '2.0' is accepted. -/
theorem spec_version_check_witness :
    _get_spec_version (some (SpecVal.vstr "2.0")) =
      Except.ok (SpecVal.vstr "2.0") :=
  (spec_version_check (some (SpecVal.vstr "2.0"))).2.1
    (SpecVal.vstr "2.0") rfl (by decide)
    (by simp +decide [pyFloat, pyParseFloat, pyStripChars, parseDecimalCore, digitsToNat])

/-- Helper: folding string pieces guarded by a condition equals appending
their concatenation. -/
theorem foldl_if_append {α : Type} (cond : α → Bool) (g : α → String)
    (l : List α) (m : String) :
    l.foldl (fun m2 p => if cond p then m2 ++ g p else m2) m =
      m ++ concat_strings (l.map (fun p => if cond p then g p else "")) := by
  induction l generalizing m with
  | nil => simp [concat_strings]
  | cons a tl ih =>
      simp only [List.foldl_cons, List.map_cons, concat_strings]
      by_cases h : cond a = true
      · rw [if_pos h, if_pos h, ih, String.append_assoc]
      · rw [if_neg h, if_neg h, ih]
        simp

/-- Helper: the message accumulation loop of `_build_fail_info_message`
appends the per-task entries of the claim, in order. -/
theorem foldl_task_entries (l : List TaskExecRow) (msg : String) :
    l.foldl
      (fun m t =>
        (t.executions.enum.foldl
          (fun m2 p =>
            if p.2.state == WfState.ERROR then
              m2 ++ ("    [action_ex_id=" ++ p.2.id ++ ", idx=" ++ toString p.1 ++
                "]: " ++ action_error_result p.2.output ++ "\n")
            else m2)
          (m ++ ("\n  " ++ t.name ++ " [task_ex_id=" ++ t.id ++ "] -> " ++
            strOfOptStr t.state_info ++ "\n"))))
      msg = msg ++ concat_strings (l.map spec_task_entry) := by
  induction l generalizing msg with
  | nil => simp [concat_strings]
  | cons t tl ih =>
      simp only [List.foldl_cons, List.map_cons, concat_strings]
      have hinner := foldl_if_append
        (fun p : Nat × ActionExecRow => p.2.state == WfState.ERROR)
        (fun p : Nat × ActionExecRow =>
          "    [action_ex_id=" ++ p.2.id ++ ", idx=" ++ toString p.1 ++ "]: " ++
            action_error_result p.2.output ++ "\n")
        t.executions.enum
        (msg ++ ("\n  " ++ t.name ++ " [task_ex_id=" ++ t.id ++ "] -> " ++
          strOfOptStr t.state_info ++ "\n"))
      rw [hinner, ih]
      unfold spec_task_entry
      simp [String.append_assoc]

/-- Claim C8: the aggregated failure message equals the message described by
the specification: it enumerates exactly the ERROR task executions with no
on-error handler taken, sorted by task name ascending, each with its name, id
and state_info followed by the result (or Unknown) of each of its action
executions in ERROR. -/
theorem build_fail_info_message_spec (is_error_handled_for : TaskExecRow → Bool)
    (wf_ex : WfExecRow) :
    _build_fail_info_message is_error_handled_for wf_ex =
      spec_fail_message is_error_handled_for wf_ex ∧
    (spec_failed_tasks is_error_handled_for wf_ex).Perm
      (wf_ex.task_executions.filter
        (fun t => t.state == WfState.ERROR && !(is_error_handled_for t))) ∧
    List.Pairwise (fun a b => a.name ≤ b.name)
      (spec_failed_tasks is_error_handled_for wf_ex) := by
  have hfilter : (find_error_task_executions wf_ex).filter
      (fun t => !(is_error_handled_for t)) =
      wf_ex.task_executions.filter
        (fun t => t.state == WfState.ERROR && !(is_error_handled_for t)) := by
    unfold find_error_task_executions
    rw [List.filter_filter]
    apply List.filter_congr
    intro t _
    rw [Bool.and_comm]
  refine ⟨?_, ?_, ?_⟩
  · unfold _build_fail_info_message spec_fail_message spec_failed_tasks
    rw [hfilter, foldl_task_entries]
  · unfold spec_failed_tasks
    exact List.mergeSort_perm _ _
  · unfold spec_failed_tasks
    have hs : List.Pairwise
        (fun a b : TaskExecRow => (decide (a.name ≤ b.name)) = true)
        ((wf_ex.task_executions.filter
          (fun t => t.state == WfState.ERROR && !(is_error_handled_for t))).mergeSort
          (fun a b => decide (a.name ≤ b.name))) := by
      apply List.sorted_mergeSort
      · intro a b c h1 h2
        simp at h1 h2 ⊢
        exact le_trans h1 h2
      · intro a b
        simp [le_total]
    exact hs.imp (fun h => of_decide_eq_true h)

/-- Claim C9: on resume/rerun continuation, every PauseWorkflow command is
filtered out before dispatch (the dispatched list holds exactly the
non-pause commands), and afterwards every completed task execution of the
workflow is marked processed. -/
theorem continue_workflow_invariants (wf_ex : WfExecRow) (cmds : List WfCommand) :
    (∀ c ∈ (_continue_workflow wf_ex cmds).1, c ≠ WfCommand.pauseWorkflow) ∧
    (∀ c, c ∈ (_continue_workflow wf_ex cmds).1 ↔
      (c ∈ cmds ∧ c ≠ WfCommand.pauseWorkflow)) ∧
    (∀ t ∈ (_continue_workflow wf_ex cmds).2.task_executions,
      is_completed t.state = true → t.processed = true) := by
  have hpause : ∀ c : WfCommand, (is_pause_command c = false) ↔ c ≠ WfCommand.pauseWorkflow := by
    intro c
    cases c <;> simp [is_pause_command]
  have hmem : ∀ c, c ∈ (_continue_workflow wf_ex cmds).1 ↔
      (c ∈ cmds ∧ c ≠ WfCommand.pauseWorkflow) := by
    intro c
    unfold _continue_workflow
    simp [List.mem_filter, hpause c]
  refine ⟨fun c hc => (hmem c |>.mp hc).2, hmem, ?_⟩
  intro t ht hcompleted
  unfold _continue_workflow at ht
  simp only [List.mem_map] at ht
  obtain ⟨t₀, ht₀, rfl⟩ := ht
  by_cases hc : (is_completed t₀.state && !t₀.processed) = true
  · simp [hc]
  · rw [if_neg hc] at hcompleted ⊢
    cases hp : t₀.processed with
    | true => rfl
    | false =>
        exfalso
        apply hc
        rw [Bool.and_eq_true, Bool.not_eq_true']
        exact ⟨hcompleted, hp⟩

/-- Witness for claim C9: after continuing a concrete workflow with one
completed unprocessed task, that task is processed. -/
theorem continue_workflow_invariants_witness :
    ((⟨"t1", "task1", WfState.SUCCESS, none, true, []⟩ : TaskExecRow)).processed = true :=
  (continue_workflow_invariants
      ⟨"w1", "wf1", "wf1", WfState.RUNNING, none, false,
        [⟨"t1", "task1", WfState.SUCCESS, none, false, []⟩]⟩
      [WfCommand.pauseWorkflow, WfCommand.noop]).2.2
    ⟨"t1", "task1", WfState.SUCCESS, none, true, []⟩
    (by decide) (by decide)

/-- Claim C10: for each entity kind, the get accessor raises
NotFoundException exactly when the load accessor returns None, otherwise both
return the same stored row, and neither accessor modifies the stored
state. -/
theorem get_load_accessors (db : Db) (key : String) :
    (((∃ m, (db_api.get_workflow_execution db key).1 =
        Except.error (MistralError.notFoundException m)) ↔
          (db_api.load_workflow_execution db key).1 = none) ∧
      (∀ x, (db_api.load_workflow_execution db key).1 = some x →
        (db_api.get_workflow_execution db key).1 = Except.ok x) ∧
      (db_api.get_workflow_execution db key).2 = db ∧
      (db_api.load_workflow_execution db key).2 = db) ∧
    (((∃ m, (db_api.get_task_execution db key).1 =
        Except.error (MistralError.notFoundException m)) ↔
          (db_api.load_task_execution db key).1 = none) ∧
      (∀ x, (db_api.load_task_execution db key).1 = some x →
        (db_api.get_task_execution db key).1 = Except.ok x) ∧
      (db_api.get_task_execution db key).2 = db ∧
      (db_api.load_task_execution db key).2 = db) ∧
    (((∃ m, (db_api.get_action_execution db key).1 =
        Except.error (MistralError.notFoundException m)) ↔
          (db_api.load_action_execution db key).1 = none) ∧
      (∀ x, (db_api.load_action_execution db key).1 = some x →
        (db_api.get_action_execution db key).1 = Except.ok x) ∧
      (db_api.get_action_execution db key).2 = db ∧
      (db_api.load_action_execution db key).2 = db) ∧
    (((∃ m, (db_api.get_cron_trigger db key).1 =
        Except.error (MistralError.notFoundException m)) ↔
          (db_api.load_cron_trigger db key).1 = none) ∧
      (∀ x, (db_api.load_cron_trigger db key).1 = some x →
        (db_api.get_cron_trigger db key).1 = Except.ok x) ∧
      (db_api.get_cron_trigger db key).2 = db ∧
      (db_api.load_cron_trigger db key).2 = db) ∧
    (((∃ m, (db_api.get_environment db key).1 =
        Except.error (MistralError.notFoundException m)) ↔
          (db_api.load_environment db key).1 = none) ∧
      (∀ x, (db_api.load_environment db key).1 = some x →
        (db_api.get_environment db key).1 = Except.ok x) ∧
      (db_api.get_environment db key).2 = db ∧
      (db_api.load_environment db key).2 = db) ∧
    (((∃ m, (db_api.get_workflow_definition db key).1 =
        Except.error (MistralError.notFoundException m)) ↔
          (db_api.load_workflow_definition db key).1 = none) ∧
      (∀ x, (db_api.load_workflow_definition db key).1 = some x →
        (db_api.get_workflow_definition db key).1 = Except.ok x) ∧
      (db_api.get_workflow_definition db key).2 = db ∧
      (db_api.load_workflow_definition db key).2 = db) := by
  refine ⟨?_, ?_, ?_, ?_, ?_, ?_⟩
  · cases hq : db_api._get_db_object_by_id (fun r : WfExecRow => r.id)
        db.workflow_executions key <;>
      simp [db_api.get_workflow_execution, db_api.load_workflow_execution, hq]
  · cases hq : db_api._get_db_object_by_id (fun r : TaskExecRow => r.id)
        db.task_executions key <;>
      simp [db_api.get_task_execution, db_api.load_task_execution, hq]
  · cases hq : db_api._get_db_object_by_id (fun r : ActionExecRow => r.id)
        db.action_executions key <;>
      simp [db_api.get_action_execution, db_api.load_action_execution, hq]
  · cases hq : db_api._get_db_object_by_name (fun r : CronTriggerRow => r.name)
        db.cron_triggers key <;>
      simp [db_api.get_cron_trigger, db_api.load_cron_trigger, hq]
  · cases hq : db_api._get_db_object_by_name (fun r : EnvironmentRow => r.name)
        db.environments key <;>
      simp [db_api.get_environment, db_api.load_environment, hq]
  · cases hq : db_api._get_db_object_by_name (fun r : WorkflowDefinitionRow => r.name)
        db.workflow_definitions key <;>
      simp [db_api.get_workflow_definition, db_api.load_workflow_definition, hq]

/-- Witness for claim C10: on an empty database the workflow execution get
accessor raises NotFoundException, matching load returning None. -/
theorem get_load_accessors_witness :
    ∃ m, (db_api.get_workflow_execution ⟨[], [], [], [], [], []⟩ "x").1 =
      Except.error (MistralError.notFoundException m) :=
  ((get_load_accessors ⟨[], [], [], [], [], []⟩ "x").1.1).mpr rfl

/-- Witness for claim C3 at a concrete one-row table: the two-sweep fire
count is at most one. -/
theorem cron_trigger_fires_at_most_once_witness :
    (process_cron_triggers_v2 (fun _ n => n + 1)
        [⟨"i1", "c1", "pat", 5, none, "wf1"⟩] [⟨"i1", "c1", "pat", 5, none, "wf1"⟩]).1.length +
      (process_cron_triggers_v2 (fun _ n => n + 1)
        [⟨"i1", "c1", "pat", 5, none, "wf1"⟩]
        (process_cron_triggers_v2 (fun _ n => n + 1)
          [⟨"i1", "c1", "pat", 5, none, "wf1"⟩]
          [⟨"i1", "c1", "pat", 5, none, "wf1"⟩]).2).1.length ≤ 1 :=
  (cron_trigger_fires_at_most_once (fun _ n => n + 1)
    ⟨"i1", "c1", "pat", 5, none, "wf1"⟩ [⟨"i1", "c1", "pat", 5, none, "wf1"⟩]
    (fun _ n => Nat.lt_succ_self n)
    (by simp [cron_unique_ids]) (by simp [cron_unique_names])).2.2

end Mistral
